import Mathlib

/-!
Verification development for the OpenLane ground-truth lane-annotation
generator (`src/core/generator.py`, `src/core/visibility.py`).

The Python sources are shallowly embedded over `ℚ`:
* numpy float arrays become rational numbers / lists of rationals;
* `np.linalg.inv` becomes `npInv` (adjugate over determinant — the true
  inverse whenever the matrix is invertible);
* the CARLA simulator library (`carla.Transform.get_matrix`,
  `get_right_vector`, the map/waypoint query API) is *external* to the
  repository, so it is modelled as an abstract interface `CarlaEnv`
  that every theorem quantifies over;
* Python early `return` becomes `Option`, silent filtering becomes
  `List.filterMap`.
-/

open Matrix

abbrev M3 := Matrix (Fin 3) (Fin 3) ℚ

abbrev M4 := Matrix (Fin 4) (Fin 4) ℚ

abbrev V3 := ℚ × ℚ × ℚ

/-- Model of `np.linalg.inv` on square rational matrices: adjugate divided
by determinant.  Coincides with the genuine inverse on invertible input
(`np.linalg.inv` raises on singular input; here the value is simply never
used singularly by the theorems). -/

def npInv {n : ℕ} (M : Matrix (Fin n) (Fin n) ℚ) : Matrix (Fin n) (Fin n) ℚ :=
  (M.det)⁻¹ • M.adjugate

/-- Model of Python `int()` applied to a real number: truncation toward
zero. -/

def ratTrunc (q : ℚ) : ℤ := if 0 ≤ q then ⌊q⌋ else ⌈q⌉

/-! ### CARLA enumerations (external library values used by the source)

`carla.LaneMarkingType` and `carla.LaneMarkingColor`.  In CARLA,
`LaneMarkingColor.Standard` is the *same enum value* as `White`, so it is
not modelled as a separate constructor. -/

inductive LaneMarkingType where
  | NONE | Other | Broken | Solid | SolidSolid | SolidBroken
  | BrokenSolid | BrokenBroken | BottsDots | Grass | Curb
  deriving DecidableEq, Fintype

inductive LaneMarkingColor where
  | White | Blue | Green | Red | Yellow | Other
  deriving DecidableEq, Fintype

structure LaneMarking where
  type : LaneMarkingType
  color : LaneMarkingColor

/-! ### `OpenLaneGenerator._get_category` (generator.py:128-148)

The Python body is a cascade of early `return`s: a white/yellow branch
that returns 1-6 / 7-12 for the six marked types, falling through
(for any other type, including `Curb`) to a final `Curb` check and a
default `return 0`.  The fall-through is modelled with `Option`. -/

def whiteTypeCode : LaneMarkingType → Option ℤ
  | .Broken => some 1
  | .Solid => some 2
  | .BrokenBroken => some 3
  | .SolidSolid => some 4
  | .BrokenSolid => some 5
  | .SolidBroken => some 6
  | _ => none

def yellowTypeCode : LaneMarkingType → Option ℤ
  | .Broken => some 7
  | .Solid => some 8
  | .BrokenBroken => some 9
  | .SolidSolid => some 10
  | .BrokenSolid => some 11
  | .SolidBroken => some 12
  | _ => none

def get_category (m_type : LaneMarkingType) (m_color : LaneMarkingColor) : ℤ :=
  let fromColor : Option ℤ :=
    if m_color = .White then whiteTypeCode m_type
    else if m_color = .Yellow then yellowTypeCode m_type
    else none
  match fromColor with
  | some k => k
  | none => if m_type = .Curb then 20 else 0

/-- The six (type) values enumerated by the white and yellow branches. -/

def sixMarkedTypes : List LaneMarkingType :=
  [.Broken, .Solid, .BrokenBroken, .SolidSolid, .BrokenSolid, .SolidBroken]

/-- C4: Category mapping.  `_get_category` is a pure total Lean function
(hence identical inputs always yield the identical integer); the six
white combinations map, in the source's order, to 1..6, the six yellow
combinations to 7..12, any curb-type marking to 20 (for every color),
white+Broken to 1, yellow+Solid to 8, and every remaining combination to
0. -/

def topRows (M : M4) : Matrix (Fin 3) (Fin 4) ℚ :=
  Matrix.of fun i j => M i.castSucc j

/-- Homogeneous coordinates `[X, Y, Z, 1]` of a 3D point. -/

def homog (p : V3) : Fin 4 → ℚ := ![p.1, p.2.1, p.2.2, 1]

/-- `P = K @ np.linalg.inv(E_cam_to_ground)[0:3, :]` (generator.py:88). -/

def projMatrix (E : M4) (K : M3) : Matrix (Fin 3) (Fin 4) ℚ :=
  K * topRows (npInv E)

/-- `z_safe = np.where(vis, z, 1.0)` for one point (generator.py:95). -/

def zSafeOf (zmin z : ℚ) : ℚ := if zmin < z then z else 1

/-- One column of the vectorized body of `_project_ground_to_uv`
(generator.py:92-105): returns `((u, v), visibility_flag)` with the
flag as the 0/1 rational the float cast produces. -/

def projectOne (P : Matrix (Fin 3) (Fin 4) ℚ) (W H zmin : ℚ) (p : V3) :
    (ℚ × ℚ) × ℚ :=
  let pr := P.mulVec (homog p)
  let z := pr 2
  let zs := zSafeOf zmin z
  let u := pr 0 / zs
  let v := pr 1 / zs
  if zmin < z ∧ 0 ≤ u ∧ u < W ∧ 0 ≤ v ∧ v < H then ((u, v), 1) else ((-1, -1), 0)

/-- `_project_ground_to_uv` (generator.py:78-105); the `N = 0` early
return is the empty map. -/

def project_ground_to_uv (pts : List V3) (E : M4) (K : M3) (W H : ℚ)
    (zmin : ℚ := 1/10) : List ((ℚ × ℚ) × ℚ) :=
  pts.map (projectOne (projMatrix E K) W H zmin)

/-- Per-point characterization behind C1, stated for `projectOne`. -/

def visFlag (dm : ℤ → ℤ → ℚ) (w h : ℤ) (threshold : ℚ) (u v z : ℚ) : ℚ :=
  let u_int := ratTrunc u
  let v_int := ratTrunc v
  if u_int < 0 ∨ w ≤ u_int ∨ v_int < 0 ∨ h ≤ v_int then 0
  else if z ≤ 0 then 0
  else if dm v_int u_int + threshold < z then 0 else 1

/-- `compute_visibility` (visibility.py:22-53).  The Python loop indexes
`z_geo_values[i]` for the `i`-th pixel; lists of unequal length raise
there, so the embedding consumes the two lists in lockstep. -/

def compute_visibility : List (ℚ × ℚ) → List ℚ → (ℤ → ℤ → ℚ) → ℤ → ℤ → ℚ → List ℚ
  | [], _, _, _, _, _ => []
  | _ :: _, [], _, _, _, _ => []
  | (u, v) :: uvs, z :: zs, dm, w, h, threshold =>
    visFlag dm w h threshold u v z :: compute_visibility uvs zs dm w h threshold

/-- Index-wise unfolding of `compute_visibility`. -/

def monoFilter (min_dy : ℚ) : ℚ → List V3 → List V3
  | _, [] => []
  | last_y, p :: rest =>
    if last_y + min_dy < p.2.1 then p :: monoFilter min_dy p.2.1 rest
    else monoFilter min_dy last_y rest

/-- `idx = np.argsort(y)` followed by reindexing (generator.py:161-162):
the input points sorted by forward coordinate. -/

def sortByY (pts : List V3) : List V3 :=
  pts.mergeSort (fun a b => decide (a.2.1 ≤ b.2.1))

def enforce_y_monotonic (pts : List V3) (min_dy : ℚ := 1/1000) : List V3 :=
  if pts.length < 2 then pts
  else
    match sortByY pts with
    | [] => []
    | p0 :: rest =>
      if (p0 :: monoFilter min_dy p0.2.1 rest).length < 2 then []
      else p0 :: monoFilter min_dy p0.2.1 rest

structure LaneData where
  xyz : List (List ℚ)
  uv : List (List ℚ)
  visibility : List ℚ
  category : ℤ

/-- `lane["xyz"][1][0]` (generator.py:302/304); out-of-range indexing
(impossible for the lanes the pipeline builds) is given the junk value
0. -/

def firstRow1 (lane : LaneData) : ℚ := (lane.xyz.getD 1 []).getD 0 0

/-- The `is_dup` loop body (generator.py:300-306). -/

def isDup (unique : List LaneData) (lane : LaneData) : Bool :=
  (!lane.xyz.isEmpty) && (!unique.isEmpty) &&
    unique.any (fun e => (!e.xyz.isEmpty) && decide (|firstRow1 e - firstRow1 lane| < 1/5))

/-- One iteration of the dedup loop: keep `unique` or append `lane`. -/

def dedupStep (unique : List LaneData) (lane : LaneData) : List LaneData :=
  if isDup unique lane then unique else unique ++ [lane]

/-- The dedup pass over `lane_lines` (generator.py:297-308). -/

def dedupLanes (lanes : List LaneData) : List LaneData :=
  lanes.foldl dedupStep []

structure CarlaLocation where
  x : ℚ := 0
  y : ℚ := 0
  z : ℚ := 0

structure CarlaRotation where
  pitch : ℚ := 0
  yaw : ℚ := 0
  roll : ℚ := 0

structure CarlaTransform where
  location : CarlaLocation := {}
  rotation : CarlaRotation := {}

structure Waypoint where
  is_junction : Bool
  transform : CarlaTransform
  lane_width : ℚ
  left_lane_marking : LaneMarking
  right_lane_marking : LaneMarking

structure CarlaEnv where
  get_matrix : CarlaTransform → M4
  get_right_vector : CarlaTransform → V3
  map_get_waypoint : CarlaLocation → Option Waypoint
  next : Waypoint → ℚ → List Waypoint
  previous : Waypoint → ℚ → List Waypoint
  get_left_lane : Waypoint → Option Waypoint
  get_right_lane : Waypoint → Option Waypoint

/-- `_swap_vehicle_to_ground` (generator.py:34-47). -/

def swap_vehicle_to_ground : M4 :=
  !![0, 1, 0, 0; 1, 0, 0, 0; 0, 0, 1, 0; 0, 0, 0, 1]

/-- `_carla_cam_to_apollo_cam` (generator.py:49-65). -/

def carla_cam_to_apollo_cam : M4 :=
  !![0, 1, 0, 0; 0, 0, -1, 0; 1, 0, 0, 0; 0, 0, 0, 1]

/-- `_T_apollo_to_openlane` (generator.py:67-76). -/

def T_apollo_to_openlane : M4 :=
  !![0, 0, 1, 0; -1, 0, 0, 0; 0, -1, 0, 0; 0, 0, 0, 1]

/-- `R_vg` (generator.py:318-320). -/

def R_vg : M3 := !![0, 1, 0; -1, 0, 0; 0, 0, 1]

/-- `R_gc` (generator.py:322-324). -/

def R_gc : M3 := !![1, 0, 0; 0, 0, 1; 0, -1, 0]

/-- `OpenLaneGenerator.__init__` state (generator.py:107-126): intrinsic,
image size and the sampling configuration; the fixed matrices of
`__init__` are the module-level constants above. -/

structure OpenLaneGenerator where
  K : M3
  W : ℚ := 1920
  H : ℚ := 1280
  sample_step : ℚ := 1/2
  max_dist : ℚ := 103
  min_dist : ℚ := 0
  lateral_range : ℚ := 35
  back_dist : ℚ := 20

/-! ### `_sample_lane_boundary_in_ground` (generator.py:350-427) -/

/-- The marking read for the requested side (generator.py:376). -/

def markingOf (wp : Waypoint) (side : ℤ) : LaneMarking :=
  if side = -1 then wp.left_lane_marking else wp.right_lane_marking

/-- Boundary point `center + right_vec * half_width * side` in World
homogeneous coordinates (generator.py:380-389). -/

def boundaryWorldPoint (env : CarlaEnv) (wp : Waypoint) (side : ℤ) : Fin 4 → ℚ :=
  let c := wp.transform.location
  let rv := env.get_right_vector wp.transform
  let hw := wp.lane_width / 2
  ![c.x + rv.1 * hw * (side : ℚ), c.y + rv.2.1 * hw * (side : ℚ),
    c.z + rv.2.2 * hw * (side : ℚ), 1]

/-- `p_ground = (T_ground_w @ p_world)[:3]` (generator.py:392-395). -/

def groundPoint (env : CarlaEnv) (Tgw : M4) (wp : Waypoint) (side : ℤ) : V3 :=
  let pg := Tgw.mulVec (boundaryWorldPoint env wp side)
  (pg 0, pg 1, pg 2)

/-- `max_loops = int(target_dist / step) + 20` (generator.py:370). -/

def maxLoops (target step : ℚ) : ℕ := (ratTrunc (target / step)).toNat + 20

/-- The range filter of generator.py:398-399: the point is appended to
`collected` only when its forward coordinate lies in
`(-back_dist, max_dist)` and its lateral coordinate is within the
lateral range. -/

def keepPoint (g : OpenLaneGenerator) (p : V3) : List V3 :=
  if -g.back_dist < p.2.1 ∧ p.2.1 < g.max_dist ∧ |p.1| < g.lateral_range then [p] else []

/-- The `while dist < target_dist and loop_guard < max_loops` loop of
`collect_points` (generator.py:373-415).  The fuel argument is
`max_loops - loop_guard`, so fuel 0 is the guard bound; the returned
natural number counts executed loop iterations (the `loop_guard`
increments).  Moving uses `next(step)[0]` / `previous(step)[0]` and
breaks when the list is empty; the point is filtered by
`keepPoint` before being collected. -/

def collectLoop (env : CarlaEnv) (g : OpenLaneGenerator) (side : ℤ) (Tgw : M4)
    (move_forward : Bool) (target : ℚ) : ℕ → Waypoint → ℚ → List V3 × ℕ
  | 0, _, _ => ([], 0)
  | fuel + 1, curr, dist =>
    if dist < target then
      if (markingOf curr side).type = .NONE then ([], 1)
      else
        match (if move_forward then env.next curr g.sample_step
               else env.previous curr g.sample_step) with
        | [] => (keepPoint g (groundPoint env Tgw curr side), 1)
        | w :: _ =>
          (keepPoint g (groundPoint env Tgw curr side) ++
            (collectLoop env g side Tgw move_forward target fuel w
              (dist + g.sample_step)).1,
           (collectLoop env g side Tgw move_forward target fuel w
              (dist + g.sample_step)).2 + 1)
    else ([], 0)

/-- `collect_points` (generator.py:357-415) with its iteration count:
the backward walk first hops to `previous(step)[0]` (returning `[]` when
there is none) and starts `dist` at `step`. -/

def collect_points_iter (env : CarlaEnv) (g : OpenLaneGenerator) (side : ℤ)
    (Tgw : M4) (start : Waypoint) (move_forward : Bool) : List V3 × ℕ :=
  let target := if move_forward then g.max_dist else g.back_dist
  if move_forward then
    collectLoop env g side Tgw move_forward target
      (maxLoops target g.sample_step) start 0
  else
    match env.previous start g.sample_step with
    | [] => ([], 0)
    | w :: _ =>
      collectLoop env g side Tgw move_forward target
        (maxLoops target g.sample_step) w g.sample_step

/-- `_sample_lane_boundary_in_ground` (generator.py:350-427): backward
points reversed, then forward points; fewer than 2 points yields the
empty array; then `_enforce_y_monotonic` with `min_dy = 1e-3`. -/

def sample_lane_boundary_in_ground (env : CarlaEnv) (g : OpenLaneGenerator)
    (start : Waypoint) (Tgw : M4) (side : ℤ) : List V3 :=
  let fwd := (collect_points_iter env g side Tgw start true).1
  let bwd := (collect_points_iter env g side Tgw start false).1
  let all := bwd.reverse ++ fwd
  if all.length < 2 then []
  else enforce_y_monotonic all (1/1000)

inductive Walked (env : CarlaEnv) (step : ℚ) (mf : Bool) : Waypoint → Waypoint → Prop
  | refl (w : Waypoint) : Walked env step mf w w
  | step {a b c : Waypoint} :
      (if mf then env.next a step else env.previous a step).head? = some b →
      Walked env step mf b c → Walked env step mf a c

def tf_sensor_local : CarlaTransform :=
  { location := { x := 8/5, y := 0, z := 31/20 },
    rotation := { pitch := -3, yaw := 0, roll := 0 } }

/-- `T_w_v = T_w_c @ inv(T_v_c)` (generator.py:190-197). -/

def computeTWV (env : CarlaEnv) (tf : CarlaTransform) : M4 :=
  env.get_matrix tf * npInv (env.get_matrix tf_sensor_local)

/-- `ego_loc_temp` (generator.py:200-204). -/

def egoLocTemp (env : CarlaEnv) (tf : CarlaTransform) : CarlaLocation :=
  { x := computeTWV env tf 0 3, y := computeTWV env tf 1 3, z := computeTWV env tf 2 3 }

/-- `T_w_v_carla_ground`: copy of `T_w_v` with entry (2,3) replaced by
the waypoint's road height (generator.py:210-212). -/

def T_w_v_ground (env : CarlaEnv) (tf : CarlaTransform) (wp : Waypoint) : M4 :=
  Matrix.of fun i j =>
    if i = 2 ∧ j = 3 then wp.transform.location.z else computeTWV env tf i j

/-- `T_w_ground = T_w_v_carla_ground @ inv(S_v2g)` (generator.py:220). -/

def T_w_ground_of (env : CarlaEnv) (tf : CarlaTransform) (wp : Waypoint) : M4 :=
  T_w_v_ground env tf wp * npInv swap_vehicle_to_ground

/-- `T_ground_w = inv(T_w_ground)` (generator.py:221). -/

def T_ground_w_of (env : CarlaEnv) (tf : CarlaTransform) (wp : Waypoint) : M4 :=
  npInv (T_w_ground_of env tf wp)

/-- `E_apollo_cam_to_ground = T_ground_w @ (T_w_c_carla @ inv(S))`
(generator.py:231-232) — the StandardCamera→Ground extrinsic of the
tick. -/

def computeE (env : CarlaEnv) (tf : CarlaTransform) (wp : Waypoint) : M4 :=
  T_ground_w_of env tf wp * (env.get_matrix tf * npInv carla_cam_to_apollo_cam)

/-- `lanes_to_process` (generator.py:240-252), in append order: current
lane both sides, then left and left-of-left, then right and
right-of-right. -/

def lanesToProcess (env : CarlaEnv) (wp : Waypoint) : List (Waypoint × ℤ) :=
  ([(wp, -1), (wp, 1)] : List (Waypoint × ℤ)) ++
  ((match env.get_left_lane wp with
   | none => []
   | some l1 =>
     (l1, -1) :: (match env.get_left_lane l1 with
       | none => []
       | some l2 => [(l2, -1)])) : List (Waypoint × ℤ)) ++
  ((match env.get_right_lane wp with
   | none => []
   | some r1 =>
     (r1, 1) :: (match env.get_right_lane r1 with
       | none => []
       | some r2 => [(r2, 1)])) : List (Waypoint × ℤ))

/-- The per-candidate body of the lane loop (generator.py:255-295):
skip `NONE` markings, sample, require at least 5 points, project,
require visible-flag sum at least 10, convert Ground → StandardCamera →
ExportCamera, and build the lane entry. -/

def buildLane (env : CarlaEnv) (g : OpenLaneGenerator) (Tgw E : M4)
    (wp : Waypoint) (side : ℤ) : Option LaneData :=
  if (markingOf wp side).type = .NONE then none
  else
    let category_id := get_category (markingOf wp side).type (markingOf wp side).color
    let points := sample_lane_boundary_in_ground env g wp Tgw side
    if points.length < 5 then none
    else
      let uvvis := project_ground_to_uv points E g.K g.W g.H
      if (uvvis.map (fun q => q.2)).sum < 10 then none
      else
        let pts_apollo := points.map (fun p =>
          ((npInv E).mulVec (homog p) 0, (npInv E).mulVec (homog p) 1,
            (npInv E).mulVec (homog p) 2))
        let pts_open := pts_apollo.map (fun p =>
          (T_apollo_to_openlane.mulVec (homog p) 0, T_apollo_to_openlane.mulVec (homog p) 1,
            T_apollo_to_openlane.mulVec (homog p) 2))
        some { xyz := [pts_open.map (fun p => p.1), pts_open.map (fun p => p.2.1),
                 pts_open.map (fun p => p.2.2)],
               uv := [uvvis.map (fun q => q.1.1), uvvis.map (fun q => q.1.2)],
               visibility := uvvis.map (fun q => q.2),
               category := category_id }

/-- `lane_lines` accumulated over the candidates (generator.py:254-295). -/

def laneLinesOf (env : CarlaEnv) (g : OpenLaneGenerator) (Tgw E : M4)
    (cands : List (Waypoint × ℤ)) : List LaneData :=
  cands.filterMap (fun c => buildLane env g Tgw E c.1 c.2)

/-- Upper-left 3x3 rotation block of a 4x4 matrix. -/

def rotBlock (M : M4) : M3 := Matrix.of fun i j => M i.castSucc j.castSucc

/-- `R_json = R_vg @ R_target @ inv(R_gc) @ inv(R_vg)` (generator.py:332). -/

def Rjson (E : M4) : M3 := R_vg * rotBlock E * npInv R_gc * npInv R_vg

/-- `E_json_compatible = eye(4)` with the rotation block and translation
column overwritten (generator.py:338-340). -/

def assembleExtrinsic (R : M3) (t : Fin 3 → ℚ) : M4 :=
  Matrix.of fun i j =>
    if hi : (i : ℕ) < 3 then
      if hj : (j : ℕ) < 3 then R ⟨i, hi⟩ ⟨j, hj⟩ else t ⟨i, hi⟩
    else if (j : ℕ) = 3 then 1 else 0

/-- The dict returned by `process_frame` (generator.py:208/342-348);
the skip path returns empty lists for `intrinsic`/`extrinsic`, modelled
as `none`. -/

structure FrameRecord where
  lane_lines : List LaneData
  intrinsic : Option M3
  extrinsic : Option M4
  file_path : String

def emptyRecord : FrameRecord := ⟨[], none, none, ""⟩

/-- The record built when a usable (non-junction) waypoint was found
(generator.py:210-348). -/

def emittedRecord (env : CarlaEnv) (g : OpenLaneGenerator) (tf : CarlaTransform)
    (wp : Waypoint) : FrameRecord :=
  { lane_lines := dedupLanes (laneLinesOf env g (T_ground_w_of env tf wp)
      (computeE env tf wp) (lanesToProcess env wp)),
    intrinsic := some g.K,
    extrinsic := some (assembleExtrinsic (Rjson (computeE env tf wp))
      (fun i => computeE env tf wp i.castSucc 3)),
    file_path := "" }

/-- `process_frame` (generator.py:178-348): junction / no-road skip,
otherwise the emitted record. -/

def process_frame (env : CarlaEnv) (g : OpenLaneGenerator)
    (tf : CarlaTransform) : FrameRecord :=
  match env.map_get_waypoint (egoLocTemp env tf) with
  | none => emptyRecord
  | some wp => if wp.is_junction then emptyRecord else emittedRecord env g tf wp

def wpW1 : Waypoint :=
  { is_junction := false,
    transform := { location := { x := 0, y := 0, z := 0 } },
    lane_width := 0,
    left_lane_marking := ⟨.Broken, .White⟩,
    right_lane_marking := ⟨.Broken, .White⟩ }

def wpW2 : Waypoint :=
  { is_junction := false,
    transform := { location := { x := 0, y := 1, z := 0 } },
    lane_width := 0,
    left_lane_marking := ⟨.Broken, .White⟩,
    right_lane_marking := ⟨.Broken, .White⟩ }

def sampleEnvW : CarlaEnv :=
  { get_matrix := fun _ => 1,
    get_right_vector := fun _ => (0, 0, 0),
    map_get_waypoint := fun _ => none,
    next := fun w _ => if w.transform.location.y = 0 then [wpW2] else [],
    previous := fun _ _ => [],
    get_left_lane := fun _ => none,
    get_right_lane := fun _ => none }

def genW : OpenLaneGenerator := { K := 1, sample_step := 1 }

set_option maxRecDepth 4000 in

set_option maxRecDepth 4000 in

theorem C4_category_mapping :
    (sixMarkedTypes.map (fun t => get_category t .White) = [1, 2, 3, 4, 5, 6]) ∧
    (sixMarkedTypes.map (fun t => get_category t .Yellow) = [7, 8, 9, 10, 11, 12]) ∧
    (∀ c, get_category .Curb c = 20) ∧
    get_category .Broken .White = 1 ∧
    get_category .Solid .Yellow = 8 ∧
    (∀ t c, ¬(c = .White ∧ t ∈ sixMarkedTypes) → ¬(c = .Yellow ∧ t ∈ sixMarkedTypes) →
      t ≠ .Curb → get_category t c = 0) := by
  refine ⟨by decide, by decide, by decide, by decide, by decide, ?_⟩
  decide

/-- Witness for C4 at a concrete unmatched combination. -/

theorem C4_category_mapping_witness : get_category .Grass .Red = 0 :=
  C4_category_mapping.2.2.2.2.2 .Grass .Red (by decide) (by decide) (by decide)

/-! ### `_project_ground_to_uv` (generator.py:78-105)

The numpy code is fully vectorized but acts independently on each column
of the 3xN point array, so it is embedded as a `List.map` of a
per-point function.  `P = K @ inv(E)[0:3,:]`, `z = (P @ [X,Y,Z,1])[2]`,
`vis = z > zmin`, `z_safe = np.where(vis, z, 1.0)`, divided coordinates,
image-bounds test, and the (-1,-1)/0 sentinel. -/

/-- Rows `0:3` of a 4x4 matrix (`inv(E)[0:3, :]`). -/

theorem projectOne_spec (P : Matrix (Fin 3) (Fin 4) ℚ) (W H : ℚ) (p : V3) :
    let pr := P.mulVec (homog p)
    let z := pr 2
    let out := projectOne P W H (1/10) p
    (out.2 = 1 ↔ (1/10 < z ∧ 0 ≤ pr 0 / z ∧ pr 0 / z < W ∧ 0 ≤ pr 1 / z ∧ pr 1 / z < H)) ∧
    (out.2 = 1 ∨ (out.2 = 0 ∧ out.1 = (-1, -1))) ∧
    (out.2 = 1 → out.1 = (pr 0 / z, pr 1 / z)) := by
  intro pr z out
  have hout : out =
      if 1/10 < z ∧ 0 ≤ pr 0 / zSafeOf (1/10) z ∧ pr 0 / zSafeOf (1/10) z < W ∧
          0 ≤ pr 1 / zSafeOf (1/10) z ∧ pr 1 / zSafeOf (1/10) z < H then
        ((pr 0 / zSafeOf (1/10) z, pr 1 / zSafeOf (1/10) z), 1)
      else ((-1, -1), 0) := rfl
  by_cases hz : (1:ℚ)/10 < z
  · have hzs : zSafeOf (1/10) z = z := if_pos hz
    rw [hzs] at hout
    by_cases hb : 0 ≤ pr 0 / z ∧ pr 0 / z < W ∧ 0 ≤ pr 1 / z ∧ pr 1 / z < H
    · rw [if_pos ⟨hz, hb⟩] at hout
      rw [hout]
      exact ⟨⟨fun _ => ⟨hz, hb⟩, fun _ => rfl⟩, Or.inl rfl, fun _ => rfl⟩
    · rw [if_neg (fun h => hb h.2)] at hout
      rw [hout]
      refine ⟨⟨fun h => absurd h (by norm_num), fun h => absurd h.2 hb⟩,
        Or.inr ⟨rfl, rfl⟩, fun h => absurd h (by norm_num)⟩
  · rw [if_neg (fun h => hz h.1)] at hout
    rw [hout]
    refine ⟨⟨fun h => absurd h (by norm_num), fun h => absurd h.1 hz⟩,
      Or.inr ⟨rfl, rfl⟩, fun h => absurd h (by norm_num)⟩

/-- C1: Projector visibility and sentinel.  For every Ground-frame point
array, extrinsic `E`, intrinsic `K` and image dimensions `W`, `H`, point
`i` of `_project_ground_to_uv`'s output carries flag 1 iff its
camera-frame depth — the third component of `K @ inv(E)[0:3,:]` applied
to the homogeneous point — exceeds the default threshold 1/10 and its
depth-divided pixel coordinates lie in `[0,W) × [0,H)`; a point not
marked visible has flag 0 and pixel exactly (-1,-1), and a visible
point's pixel equals its divided coordinates. -/

theorem C1_projector_visibility_sentinel (pts : List V3) (E : M4) (K : M3)
    (W H : ℚ) (i : ℕ) (p : V3) (out : (ℚ × ℚ) × ℚ)
    (hp : pts[i]? = some p)
    (ho : (project_ground_to_uv pts E K W H)[i]? = some out) :
    let pr := (projMatrix E K).mulVec (homog p)
    let z := pr 2
    (out.2 = 1 ↔ (1/10 < z ∧ 0 ≤ pr 0 / z ∧ pr 0 / z < W ∧ 0 ≤ pr 1 / z ∧ pr 1 / z < H)) ∧
    (out.2 = 1 ∨ (out.2 = 0 ∧ out.1 = (-1, -1))) ∧
    (out.2 = 1 → out.1 = (pr 0 / z, pr 1 / z)) := by
  have hmap : (project_ground_to_uv pts E K W H)[i]? =
      (pts[i]?).map (projectOne (projMatrix E K) W H (1/10)) := by
    simp [project_ground_to_uv]
  rw [hmap, hp] at ho
  have hout : out = projectOne (projMatrix E K) W H (1/10) p :=
    (Option.some_inj.mp ho).symm
  intro pr z
  rw [hout]
  exact projectOne_spec (projMatrix E K) W H p

/-- Witness for C1 at the Ground point (0,0,5) with identity extrinsic
and intrinsic in a 10x10 image. -/

theorem C1_projector_visibility_sentinel_witness :
    let pr := (projMatrix 1 1).mulVec (homog ((0:ℚ), (0:ℚ), (5:ℚ)))
    let z := pr 2
    let out := projectOne (projMatrix 1 1) 10 10 (1/10) ((0:ℚ), (0:ℚ), (5:ℚ))
    (out.2 = 1 ↔ (1/10 < z ∧ 0 ≤ pr 0 / z ∧ pr 0 / z < 10 ∧ 0 ≤ pr 1 / z ∧ pr 1 / z < 10)) ∧
    (out.2 = 1 ∨ (out.2 = 0 ∧ out.1 = (-1, -1))) ∧
    (out.2 = 1 → out.1 = (pr 0 / z, pr 1 / z)) :=
  C1_projector_visibility_sentinel [((0:ℚ), (0:ℚ), (5:ℚ))] 1 1 10 10 0
    ((0:ℚ), (0:ℚ), (5:ℚ)) (projectOne (projMatrix 1 1) 10 10 (1/10) ((0:ℚ), (0:ℚ), (5:ℚ)))
    rfl (by simp [project_ground_to_uv])

/-- C9: Safe divide in projection.  The divisor `z_safe` actually used by
`_project_ground_to_uv` (at the default threshold 1/10) is always
strictly positive — so the rational division is well defined and total —
and whenever the camera-frame depth does not exceed the threshold the
divisor is the substituted value 1 and the point's visibility flag is 0. -/

theorem C9_safe_divide_substitution (pts : List V3) (E : M4) (K : M3)
    (W H : ℚ) (i : ℕ) (p : V3) (out : (ℚ × ℚ) × ℚ)
    (hp : pts[i]? = some p)
    (ho : (project_ground_to_uv pts E K W H)[i]? = some out) :
    let z := (projMatrix E K).mulVec (homog p) 2
    0 < zSafeOf (1/10) z ∧ (¬ 1/10 < z → zSafeOf (1/10) z = 1 ∧ out.2 = 0) := by
  intro z
  constructor
  · unfold zSafeOf
    split
    · linarith
    · norm_num
  · intro hz
    refine ⟨if_neg hz, ?_⟩
    have hmap : (project_ground_to_uv pts E K W H)[i]? =
        (pts[i]?).map (projectOne (projMatrix E K) W H (1/10)) := by
      simp [project_ground_to_uv]
    rw [hmap, hp] at ho
    have hout : out = projectOne (projMatrix E K) W H (1/10) p :=
      (Option.some_inj.mp ho).symm
    have hspec := projectOne_spec (projMatrix E K) W H p
    rw [← hout] at hspec
    rcases hspec.2.1 with h1 | h0
    · exact absurd ((hspec.1.mp h1).1) hz
    · exact h0.1

/-- Witness for C9 at a point of non-positive camera depth (the Ground
point (0,0,-5) with identity extrinsic and intrinsic). -/

theorem C9_safe_divide_substitution_witness :
    let z := (projMatrix 1 1).mulVec (homog ((0:ℚ), (0:ℚ), (-5:ℚ))) 2
    0 < zSafeOf (1/10) z ∧ (¬ 1/10 < z → zSafeOf (1/10) z = 1 ∧
      (projectOne (projMatrix 1 1) 10 10 (1/10) ((0:ℚ), (0:ℚ), (-5:ℚ))).2 = 0) :=
  C9_safe_divide_substitution [((0:ℚ), (0:ℚ), (-5:ℚ))] 1 1 10 10 0
    ((0:ℚ), (0:ℚ), (-5:ℚ))
    (projectOne (projMatrix 1 1) 10 10 (1/10) ((0:ℚ), (0:ℚ), (-5:ℚ)))
    rfl (by simp [project_ground_to_uv])

/-! ### `VisibilityHandler.compute_visibility` (visibility.py:22-53)

Depth map as a function of integer (row, column); pixel coordinates
arrive as floats and are truncated by Python `int()` (toward zero,
modelled by `ratTrunc`).  The per-iteration body appends 0.0 or 1.0. -/

/-- Flag computed by one iteration of `compute_visibility`'s loop. -/

theorem compute_visibility_getElem (uvs : List (ℚ × ℚ)) (zs : List ℚ)
    (dm : ℤ → ℤ → ℚ) (w h : ℤ) (threshold : ℚ) (i : ℕ) (u v z : ℚ)
    (hp : uvs[i]? = some (u, v)) (hz : zs[i]? = some z) :
    (compute_visibility uvs zs dm w h threshold)[i]? =
      some (visFlag dm w h threshold u v z) := by
  induction uvs generalizing zs i with
  | nil => simp at hp
  | cons head tail ih =>
    cases zs with
    | nil => simp at hz
    | cons zhead ztail =>
      obtain ⟨uh, vh⟩ := head
      cases i with
      | zero =>
        simp only [List.getElem?_cons_zero, Option.some_inj] at hp hz
        cases hp
        cases hz
        simp [compute_visibility]
      | succ n =>
        simp only [List.getElem?_cons_succ] at hp hz
        simpa [compute_visibility] using ih ztail n hp hz

/-- C8 as stated is false: Python truncates the float pixel coordinates
toward zero before the bounds check, so `u = -1/2` (outside `[0, w)`)
truncates to column 0 and is reported visible.  Concretely, with one
candidate pixel `(-1/2, 0)`, depth 1, a constant depth map of 10, a
10x10 image, and the default tolerance 2/5, `compute_visibility`
returns flag 1 although `0 ≤ u` fails. -/

theorem C8_visibility_counterexample :
    compute_visibility [(-(1:ℚ)/2, 0)] [1] (fun _ _ => 10) 10 10 (2/5) = [1] ∧
    ¬ (0 ≤ -(1:ℚ)/2) := by
  constructor
  · have h1 : ratTrunc (-(1:ℚ)/2) = 0 := by
      unfold ratTrunc
      rw [if_neg (by norm_num)]
      norm_num
    have h2 : ratTrunc (0:ℚ) = 0 := by
      unfold ratTrunc
      rw [if_pos le_rfl]
      norm_num
    simp only [compute_visibility, visFlag, h1, h2]
    norm_num
  · norm_num

/-- C8 (amended): VisibilityOracle z-buffer test.  For every candidate
list, the `i`-th flag is 1 iff the *truncated-toward-zero* integer pixel
`(int(u), int(v))` lies in `[0,w) × [0,h)`, the geometric depth `z` is
positive, and `z ≤ depth_map[int(v), int(u)] + tolerance` (default
tolerance 2/5); otherwise the flag is 0. -/

theorem C8_zbuffer_visibility (uvs : List (ℚ × ℚ)) (zs : List ℚ)
    (dm : ℤ → ℤ → ℚ) (w h : ℤ) (i : ℕ) (u v z flag : ℚ)
    (hp : uvs[i]? = some (u, v)) (hz : zs[i]? = some z)
    (hf : (compute_visibility uvs zs dm w h (2/5))[i]? = some flag) :
    (flag = 1 ↔ (0 ≤ ratTrunc u ∧ ratTrunc u < w ∧ 0 ≤ ratTrunc v ∧ ratTrunc v < h ∧
      0 < z ∧ z ≤ dm (ratTrunc v) (ratTrunc u) + 2/5)) ∧
    (flag = 1 ∨ flag = 0) := by
  rw [compute_visibility_getElem uvs zs dm w h (2/5) i u v z hp hz] at hf
  have hflag : flag = visFlag dm w h (2/5) u v z := (Option.some_inj.mp hf).symm
  subst hflag
  unfold visFlag
  by_cases hb : ratTrunc u < 0 ∨ w ≤ ratTrunc u ∨ ratTrunc v < 0 ∨ h ≤ ratTrunc v
  · rw [if_pos hb]
    refine ⟨⟨fun h01 => absurd h01 (by norm_num), fun hc => ?_⟩, Or.inr rfl⟩
    rcases hb with hb | hb | hb | hb
    · exact absurd hc.1 (not_le.mpr hb)
    · exact absurd hc.2.1 (not_lt.mpr hb)
    · exact absurd hc.2.2.1 (not_le.mpr hb)
    · exact absurd hc.2.2.2.1 (not_lt.mpr hb)
  · rw [if_neg hb]
    push_neg at hb
    obtain ⟨hu0, huw, hv0, hvh⟩ := hb
    by_cases hz0 : z ≤ 0
    · rw [if_pos hz0]
      refine ⟨⟨fun h01 => absurd h01 (by norm_num), fun hc => ?_⟩, Or.inr rfl⟩
      exact absurd hc.2.2.2.2.1 (not_lt.mpr hz0)
    · rw [if_neg hz0]
      by_cases hd : dm (ratTrunc v) (ratTrunc u) + 2/5 < z
      · rw [if_pos hd]
        refine ⟨⟨fun h01 => absurd h01 (by norm_num), fun hc => ?_⟩, Or.inr rfl⟩
        exact absurd hc.2.2.2.2.2 (not_le.mpr hd)
      · rw [if_neg hd]
        exact ⟨⟨fun _ => ⟨hu0, huw, hv0, hvh, not_le.mp hz0, not_lt.mp hd⟩,
          fun _ => rfl⟩, Or.inl rfl⟩

/-- Witness for the amended C8 at the in-bounds visible pixel (5,5). -/

theorem C8_zbuffer_visibility_witness :
    (visFlag (fun _ _ => 10) 10 10 (2/5) 5 5 1 = 1 ↔
      (0 ≤ ratTrunc 5 ∧ ratTrunc 5 < 10 ∧ 0 ≤ ratTrunc 5 ∧ ratTrunc 5 < 10 ∧
        0 < (1:ℚ) ∧ (1:ℚ) ≤ (fun _ _ => (10:ℚ)) (ratTrunc 5) (ratTrunc 5) + 2/5)) ∧
    (visFlag (fun _ _ => 10) 10 10 (2/5) 5 5 1 = 1 ∨
      visFlag (fun _ _ => 10) 10 10 (2/5) 5 5 1 = 0) :=
  C8_zbuffer_visibility [((5:ℚ), (5:ℚ))] [1] (fun _ _ => 10) 10 10 0 5 5 1
    (visFlag (fun _ _ => 10) 10 10 (2/5) 5 5 1) rfl rfl
    (by simp [compute_visibility])

/-! ### `OpenLaneGenerator._enforce_y_monotonic` (generator.py:149-175)

Sort by the forward (`y`) coordinate (`np.argsort`), then keep index 0
and every later point whose `y` exceeds the last kept `y` by more than
`min_dy`; if the input has fewer than 2 columns it is returned
*unchanged* (the early return on line 155-156), and if fewer than 2
points survive the filter the empty array is returned. -/

/-- The "keep strictly increasing y" filter loop (generator.py:165-170):
first argument is `last_y`. -/

theorem monoFilter_sublist (eps : ℚ) :
    ∀ (l : List V3) (y : ℚ), (monoFilter eps y l).Sublist l := by
  intro l
  induction l with
  | nil => intro y; simp [monoFilter]
  | cons q rest ih =>
    intro y
    unfold monoFilter
    split
    · exact (ih q.2.1).cons₂ q
    · exact (ih y).cons q

theorem monoFilter_chain (eps : ℚ) :
    ∀ (l : List V3) (y : ℚ) (p : V3), p.2.1 = y →
      List.Chain' (fun a b => a.2.1 + eps < b.2.1) (p :: monoFilter eps y l) := by
  intro l
  induction l with
  | nil => intro y p _; simp [monoFilter]
  | cons q rest ih =>
    intro y p hp
    unfold monoFilter
    split
    · rename_i hlt
      rw [List.chain'_cons]
      exact ⟨by rw [hp]; exact hlt, ih q.2.1 q rfl⟩
    · exact ih y p hp

theorem enforce_y_monotonic_eq_nil (pts : List V3) (eps : ℚ)
    (h : ¬ pts.length < 2) (hs : sortByY pts = []) :
    enforce_y_monotonic pts eps = [] := by
  unfold enforce_y_monotonic
  rw [if_neg h, hs]

theorem enforce_y_monotonic_eq_cons (pts : List V3) (eps : ℚ) (p0 : V3)
    (rest : List V3) (h : ¬ pts.length < 2) (hs : sortByY pts = p0 :: rest) :
    enforce_y_monotonic pts eps =
      if (p0 :: monoFilter eps p0.2.1 rest).length < 2 then []
      else p0 :: monoFilter eps p0.2.1 rest := by
  unfold enforce_y_monotonic
  rw [if_neg h, hs]

/-- Membership in the filtered output implies membership in the input
(used by the sampling claim): the output is a sub-selection of a
permutation of the input. -/

theorem enforce_y_monotonic_mem (pts : List V3) (eps : ℚ) (p : V3)
    (h : p ∈ enforce_y_monotonic pts eps) : p ∈ pts := by
  by_cases hlen : pts.length < 2
  · unfold enforce_y_monotonic at h
    rwa [if_pos hlen] at h
  · rcases hs : sortByY pts with _ | ⟨p0, rest⟩
    · rw [enforce_y_monotonic_eq_nil pts eps hlen hs] at h
      simp at h
    · rw [enforce_y_monotonic_eq_cons pts eps p0 rest hlen hs] at h
      have hsub : p ∈ p0 :: rest := by
        by_cases h2 : (p0 :: monoFilter eps p0.2.1 rest).length < 2
        · rw [if_pos h2] at h
          simp at h
        · rw [if_neg h2] at h
          exact ((monoFilter_sublist eps rest p0.2.1).cons₂ p0).mem h
      have hperm : (sortByY pts).Perm pts := List.mergeSort_perm pts _
      rw [hs] at hperm
      exact hperm.mem_iff.mp hsub

/-- C3 as stated is false at arrays with fewer than 2 points: the claim
requires the empty array whenever fewer than 2 points would remain after
filtering, but the source returns such inputs unchanged (early return,
generator.py:155-156).  A single-point input keeps exactly 1 point, yet
the output is that point, not the empty array. -/

theorem C3_monotonic_counterexample :
    enforce_y_monotonic [((0:ℚ), 0, 0)] (1/1000) = [((0:ℚ), 0, 0)] ∧
    ([((0:ℚ), 0, 0)] : List V3) ≠ [] := by
  constructor
  · unfold enforce_y_monotonic
    rw [if_pos (by simp)]
  · simp

/-- C3 (amended): Monotonic enforcement for inputs of at least 2 points.
The output of `_enforce_y_monotonic` (default epsilon 1/1000) is a
subsequence of the input sorted by forward coordinate, consecutive
retained forward coordinates increase by more than epsilon, and the
result is either empty (when fewer than 2 points survive the filter) or
has at least 2 points; inputs with fewer than 2 points are returned
unchanged. -/

theorem C3_monotonic_enforcement (pts : List V3) :
    (pts.length < 2 → enforce_y_monotonic pts (1/1000) = pts) ∧
    (2 ≤ pts.length →
      (enforce_y_monotonic pts (1/1000)).Sublist (sortByY pts) ∧
      List.Chain' (fun a b => a.2.1 + 1/1000 < b.2.1) (enforce_y_monotonic pts (1/1000)) ∧
      (enforce_y_monotonic pts (1/1000) = [] ∨
        2 ≤ (enforce_y_monotonic pts (1/1000)).length)) := by
  constructor
  · intro h
    unfold enforce_y_monotonic
    rw [if_pos h]
  · intro h
    have hnot : ¬ pts.length < 2 := not_lt.mpr h
    rcases hs : sortByY pts with _ | ⟨p0, rest⟩
    · rw [enforce_y_monotonic_eq_nil pts _ hnot hs]
      exact ⟨List.nil_sublist _, List.chain'_nil, Or.inl rfl⟩
    · rw [enforce_y_monotonic_eq_cons pts _ p0 rest hnot hs]
      by_cases h2 : (p0 :: monoFilter (1/1000) p0.2.1 rest).length < 2
      · rw [if_pos h2]
        exact ⟨List.nil_sublist _, List.chain'_nil, Or.inl rfl⟩
      · rw [if_neg h2]
        refine ⟨?_, monoFilter_chain (1/1000) rest p0.2.1 p0 rfl, Or.inr (not_lt.mp h2)⟩
        exact (monoFilter_sublist (1/1000) rest p0.2.1).cons₂ p0

/-- Witness for the amended C3 on a concrete 2-point input. -/

theorem C3_monotonic_enforcement_witness :
    (enforce_y_monotonic [((0:ℚ), 0, 0), ((0:ℚ), 1, 0)] (1/1000)).Sublist
      (sortByY [((0:ℚ), 0, 0), ((0:ℚ), 1, 0)]) ∧
    List.Chain' (fun a b => a.2.1 + 1/1000 < b.2.1)
      (enforce_y_monotonic [((0:ℚ), 0, 0), ((0:ℚ), 1, 0)] (1/1000)) ∧
    (enforce_y_monotonic [((0:ℚ), 0, 0), ((0:ℚ), 1, 0)] (1/1000) = [] ∨
      2 ≤ (enforce_y_monotonic [((0:ℚ), 0, 0), ((0:ℚ), 1, 0)] (1/1000)).length) :=
  (C3_monotonic_enforcement [((0:ℚ), 0, 0), ((0:ℚ), 1, 0)]).2 (by simp)

/-! ### Lane records and deduplication (generator.py:288-308)

A lane entry is the dict built on generator.py:288-294: `xyz` is the
3-row (x, y, z) list-of-rows of the ExportCamera(OpenLane)-frame points
— in that frame x is forward, y is left, z is up — `uv` the 2-row pixel
array, `visibility` the 0/1 flags, `category` the integer code.
Deduplication (generator.py:297-308) reads `lane["xyz"][1][0]`: the
first sample of row 1, i.e. of the *left/lateral* axis of the stored
frame. -/

theorem isDup_true_iff (unique : List LaneData) (lane : LaneData) :
    isDup unique lane = true ↔
      (lane.xyz ≠ [] ∧ unique ≠ [] ∧
        ∃ e ∈ unique, e.xyz ≠ [] ∧ |firstRow1 e - firstRow1 lane| < 1/5) := by
  simp [isDup, List.any_eq_true, List.isEmpty_iff, and_assoc]

theorem dedup_foldl_append (lanes : List LaneData) :
    ∀ acc : List LaneData, ∃ t, lanes.foldl dedupStep acc = acc ++ t ∧ t.Sublist lanes := by
  induction lanes with
  | nil => exact fun acc => ⟨[], by simp, List.nil_sublist _⟩
  | cons l rest ih =>
    intro acc
    by_cases hd : isDup acc l = true
    · have hstep : dedupStep acc l = acc := by
        unfold dedupStep
        rw [if_pos hd]
      obtain ⟨t, ht, hsub⟩ := ih acc
      refine ⟨t, ?_, hsub.cons l⟩
      rw [List.foldl_cons, hstep, ht]
    · have hstep : dedupStep acc l = acc ++ [l] := by
        unfold dedupStep
        rw [if_neg hd]
      obtain ⟨t, ht, hsub⟩ := ih (acc ++ [l])
      refine ⟨l :: t, ?_, hsub.cons₂ l⟩
      rw [List.foldl_cons, hstep, ht, List.append_assoc, List.singleton_append]

theorem dedup_foldl_spec (lanes : List LaneData) :
    ∀ acc : List LaneData,
      (∀ e ∈ acc, e.xyz ≠ []) →
      (∀ l ∈ lanes, l.xyz ≠ []) →
      List.Pairwise (fun a b => ¬ |firstRow1 a - firstRow1 b| < 1/5) acc →
      (∀ e ∈ acc, e ∈ lanes.foldl dedupStep acc) ∧
      List.Pairwise (fun a b => ¬ |firstRow1 a - firstRow1 b| < 1/5)
        (lanes.foldl dedupStep acc) ∧
      (∀ l ∈ lanes, l ∉ lanes.foldl dedupStep acc →
        ∃ k ∈ lanes.foldl dedupStep acc, |firstRow1 k - firstRow1 l| < 1/5) := by
  induction lanes with
  | nil =>
    intro acc hacc _ hpair
    exact ⟨fun e he => he, hpair, by simp⟩
  | cons l rest ih =>
    intro acc hacc hlanes hpair
    have hl : l.xyz ≠ [] := hlanes l (List.mem_cons_self l rest)
    have hrest : ∀ x ∈ rest, x.xyz ≠ [] := fun x hx => hlanes x (List.mem_cons_of_mem l hx)
    by_cases hd : isDup acc l = true
    · have hstep : dedupStep acc l = acc := by
        unfold dedupStep
        rw [if_pos hd]
      have hfold : (l :: rest).foldl dedupStep acc = rest.foldl dedupStep acc := by
        rw [List.foldl_cons, hstep]
      obtain ⟨hmono, hpair2, hcompl⟩ := ih acc hacc hrest hpair
      rw [hfold]
      refine ⟨hmono, hpair2, ?_⟩
      intro l2 hl2 hnot
      rcases List.mem_cons.mp hl2 with rfl | hl2
      · obtain ⟨-, -, e, he, -, hclose⟩ := (isDup_true_iff acc l2).mp hd
        exact ⟨e, hmono e he, hclose⟩
      · exact hcompl l2 hl2 hnot
    · have hstep : dedupStep acc l = acc ++ [l] := by
        unfold dedupStep
        rw [if_neg hd]
      have hfold : (l :: rest).foldl dedupStep acc = rest.foldl dedupStep (acc ++ [l]) := by
        rw [List.foldl_cons, hstep]
      have hacc2 : ∀ e ∈ acc ++ [l], e.xyz ≠ [] := by
        intro e he
        rcases List.mem_append.mp he with he | he
        · exact hacc e he
        · rw [List.mem_singleton.mp he]
          exact hl
      have hsep : ∀ e ∈ acc, ¬ |firstRow1 e - firstRow1 l| < 1/5 := by
        intro e he hclose
        exact hd ((isDup_true_iff acc l).mpr
          ⟨hl, List.ne_nil_of_mem he, e, he, hacc e he, hclose⟩)
      have hpair2 : List.Pairwise (fun a b => ¬ |firstRow1 a - firstRow1 b| < 1/5)
          (acc ++ [l]) := by
        rw [List.pairwise_append]
        exact ⟨hpair, List.pairwise_singleton _ l, by
          intro a ha b hb
          rw [List.mem_singleton.mp hb]
          exact hsep a ha⟩
      obtain ⟨hmono, hpair3, hcompl⟩ := ih (acc ++ [l]) hacc2 hrest hpair2
      rw [hfold]
      refine ⟨?_, hpair3, ?_⟩
      · intro e he
        exact hmono e (List.mem_append.mpr (Or.inl he))
      · intro l2 hl2 hnot
        rcases List.mem_cons.mp hl2 with rfl | hl2
        · exact absurd (hmono l2 (List.mem_append.mpr (Or.inr (List.mem_singleton_self l2)))) hnot
        · exact hcompl l2 hl2 hnot

theorem dedup_pair (A B : LaneData) (hA : A.xyz ≠ []) (hB : B.xyz ≠ []) :
    (|firstRow1 A - firstRow1 B| < 1/5 → dedupLanes [A, B] = [A]) ∧
    (¬ |firstRow1 A - firstRow1 B| < 1/5 → dedupLanes [A, B] = [A, B]) := by
  have h1 : dedupStep [] A = [A] := by
    unfold dedupStep
    rw [if_neg]
    · simp
    · simp [isDup]
  have hlist : dedupLanes [A, B] = dedupStep (dedupStep [] A) B := rfl
  constructor
  · intro hclose
    rw [hlist, h1]
    unfold dedupStep
    rw [if_pos ((isDup_true_iff [A] B).mpr
      ⟨hB, by simp, A, List.mem_singleton_self A, hA, hclose⟩)]
  · intro hfar
    rw [hlist, h1]
    unfold dedupStep
    rw [if_neg]
    · simp
    · intro habs
      obtain ⟨-, -, e, he, -, hclose⟩ := (isDup_true_iff [A] B).mp habs
      rw [List.mem_singleton.mp he] at hclose
      exact hfar hclose

/-- C5 as stated is false: deduplication compares `xyz[1][0]`, the first
sample of the *second* row of the stored ExportCamera-frame array — the
left/lateral axis — not the forward axis (row 0).  Two lanes whose first
forward-axis (row 0) samples differ by 3/20 < 1/5 but whose row-1
samples differ by 1 are both kept, contradicting the claim that they are
merged to one. -/

theorem C5_deduplication_counterexample :
    dedupLanes [(⟨[[0], [0], [0]], [], [], 0⟩ : LaneData),
        (⟨[[3/20], [1], [0]], [], [], 0⟩ : LaneData)] =
      [(⟨[[0], [0], [0]], [], [], 0⟩ : LaneData),
        (⟨[[3/20], [1], [0]], [], [], 0⟩ : LaneData)] ∧
    |(((⟨[[0], [0], [0]], [], [], 0⟩ : LaneData).xyz.getD 0 []).getD 0 0) -
      (((⟨[[3/20], [1], [0]], [], [], 0⟩ : LaneData).xyz.getD 0 []).getD 0 0)| < 1/5 ∧
    dedupLanes [(⟨[[0], [0], [0]], [], [], 0⟩ : LaneData),
        (⟨[[3/20], [1], [0]], [], [], 0⟩ : LaneData)] ≠
      [(⟨[[0], [0], [0]], [], [], 0⟩ : LaneData)] := by
  have hfar : ¬ |firstRow1 (⟨[[0], [0], [0]], [], [], 0⟩ : LaneData) -
      firstRow1 (⟨[[3/20], [1], [0]], [], [], 0⟩ : LaneData)| < 1/5 := by
    unfold firstRow1
    simp only [List.getD]
    norm_num [abs_of_nonpos]
  have hkeep := (dedup_pair (⟨[[0], [0], [0]], [], [], 0⟩ : LaneData)
    (⟨[[3/20], [1], [0]], [], [], 0⟩ : LaneData) (by simp) (by simp)).2 hfar
  refine ⟨hkeep, ?_, ?_⟩
  · simp only [List.getD]
    norm_num [abs_of_nonpos]
  · rw [hkeep]
    simp

/-- C5 (amended): Deduplication in `process_frame` compares the first
sample of the *second row* of the stored `xyz` array (the left/lateral
axis of the ExportCamera frame), not the forward axis.  For lanes with
nonempty `xyz`: the kept list is a subsequence of the input (original
relative order preserved), any two kept lanes' comparison values differ
by at least 1/5, every dropped lane is within 1/5 of some kept lane, two
lanes whose comparison values differ by less than 1/5 merge to one, and
two differing by at least 1/5 (e.g. 1/4) are both kept. -/

theorem C5_deduplication (lanes : List LaneData) (hne : ∀ l ∈ lanes, l.xyz ≠ []) :
    (dedupLanes lanes).Sublist lanes ∧
    List.Pairwise (fun a b => ¬ |firstRow1 a - firstRow1 b| < 1/5) (dedupLanes lanes) ∧
    (∀ l ∈ lanes, l ∉ dedupLanes lanes →
      ∃ k ∈ dedupLanes lanes, |firstRow1 k - firstRow1 l| < 1/5) ∧
    (∀ A B : LaneData, A.xyz ≠ [] → B.xyz ≠ [] →
      (|firstRow1 A - firstRow1 B| < 1/5 → dedupLanes [A, B] = [A]) ∧
      (¬ |firstRow1 A - firstRow1 B| < 1/5 → dedupLanes [A, B] = [A, B])) := by
  obtain ⟨t, ht, hsub⟩ := dedup_foldl_append lanes []
  have hts : dedupLanes lanes = t := by
    unfold dedupLanes
    rw [ht, List.nil_append]
  obtain ⟨-, hpair, hcompl⟩ :=
    dedup_foldl_spec lanes [] (by simp) hne (List.Pairwise.nil)
  exact ⟨hts ▸ hsub, hpair, hcompl, dedup_pair⟩

/-- Witness for the amended C5 on two concrete lanes whose row-1 first
samples differ by 1/4. -/

theorem C5_deduplication_witness :
    (dedupLanes [(⟨[[0], [0], [0]], [], [], 0⟩ : LaneData),
        (⟨[[0], [1/4], [0]], [], [], 0⟩ : LaneData)]).Sublist
      [(⟨[[0], [0], [0]], [], [], 0⟩ : LaneData),
        (⟨[[0], [1/4], [0]], [], [], 0⟩ : LaneData)] ∧
    List.Pairwise (fun a b => ¬ |firstRow1 a - firstRow1 b| < 1/5)
      (dedupLanes [(⟨[[0], [0], [0]], [], [], 0⟩ : LaneData),
        (⟨[[0], [1/4], [0]], [], [], 0⟩ : LaneData)]) ∧
    (∀ l ∈ [(⟨[[0], [0], [0]], [], [], 0⟩ : LaneData),
        (⟨[[0], [1/4], [0]], [], [], 0⟩ : LaneData)],
      l ∉ dedupLanes [(⟨[[0], [0], [0]], [], [], 0⟩ : LaneData),
        (⟨[[0], [1/4], [0]], [], [], 0⟩ : LaneData)] →
      ∃ k ∈ dedupLanes [(⟨[[0], [0], [0]], [], [], 0⟩ : LaneData),
        (⟨[[0], [1/4], [0]], [], [], 0⟩ : LaneData)],
        |firstRow1 k - firstRow1 l| < 1/5) ∧
    (∀ A B : LaneData, A.xyz ≠ [] → B.xyz ≠ [] →
      (|firstRow1 A - firstRow1 B| < 1/5 → dedupLanes [A, B] = [A]) ∧
      (¬ |firstRow1 A - firstRow1 B| < 1/5 → dedupLanes [A, B] = [A, B])) :=
  C5_deduplication [(⟨[[0], [0], [0]], [], [], 0⟩ : LaneData),
    (⟨[[0], [1/4], [0]], [], [], 0⟩ : LaneData)] (by simp)

/-! ### The CARLA interface and the generator object

`carla.Location`, `carla.Rotation`, `carla.Transform` are plain data;
the library *functions* on them that involve trigonometry
(`Transform.get_matrix`, `Transform.get_right_vector`) and the map/
waypoint query service (`Map.get_waypoint`, `Waypoint.next/previous/
get_left_lane/get_right_lane`) belong to the CARLA simulator, which is
external to this repository, so they are fields of an abstract
environment `CarlaEnv` that all theorems quantify over. -/

theorem collectLoop_count_le (env : CarlaEnv) (g : OpenLaneGenerator) (side : ℤ)
    (Tgw : M4) (mf : Bool) (target : ℚ) :
    ∀ (fuel : ℕ) (curr : Waypoint) (dist : ℚ),
      (collectLoop env g side Tgw mf target fuel curr dist).2 ≤ fuel := by
  intro fuel
  induction fuel with
  | zero => intro curr dist; simp [collectLoop]
  | succ n ih =>
    intro curr dist
    simp only [collectLoop]
    split
    · split
      · simp
      · split
        · simp
        · exact Nat.succ_le_succ (ih _ _)
    · simp

/-- C10: Sampler walk termination.  For *every* road-graph environment —
including one whose `next`/`previous` always return a further waypoint
and whose markings are never `NONE` — each direction's walk inside
`_sample_lane_boundary_in_ground` executes at most
`int(target_dist/step) + 20` loop-guard iterations, the bound enforced
by `loop_guard < max_loops`; the embedding is structurally recursive on
that bound, so the walk (and hence the sampler) always terminates. -/

theorem C10_walk_iteration_bound (env : CarlaEnv) (g : OpenLaneGenerator)
    (side : ℤ) (Tgw : M4) (start : Waypoint) (mf : Bool) :
    (collect_points_iter env g side Tgw start mf).2 ≤
      maxLoops (if mf then g.max_dist else g.back_dist) g.sample_step := by
  cases mf
  · simp only [collect_points_iter, Bool.false_eq_true, if_false]
    split
    · simp
    · exact collectLoop_count_le env g side Tgw false g.back_dist _ _ _
  · simp only [collect_points_iter, if_true]
    exact collectLoop_count_le env g side Tgw true g.max_dist _ _ _

/-- The reachability trace of the walk: `Walked env step mf a b` holds
when repeatedly hopping to the head of `next(step)` (forward) or
`previous(step)` (backward) leads from `a` to `b`. -/

theorem collectLoop_mem (env : CarlaEnv) (g : OpenLaneGenerator) (side : ℤ)
    (Tgw : M4) (mf : Bool) (target : ℚ) :
    ∀ (fuel : ℕ) (curr : Waypoint) (dist : ℚ) (p : V3),
      p ∈ (collectLoop env g side Tgw mf target fuel curr dist).1 →
      ∃ w, Walked env g.sample_step mf curr w ∧ p = groundPoint env Tgw w side ∧
        -g.back_dist < p.2.1 ∧ p.2.1 < g.max_dist ∧ |p.1| < g.lateral_range := by
  intro fuel
  induction fuel with
  | zero => intro curr dist p hp; simp [collectLoop] at hp
  | succ n ih =>
    intro curr dist p hp
    have hkp : ∀ q ∈ keepPoint g (groundPoint env Tgw curr side),
        ∃ w2, Walked env g.sample_step mf curr w2 ∧ q = groundPoint env Tgw w2 side ∧
          -g.back_dist < q.2.1 ∧ q.2.1 < g.max_dist ∧ |q.1| < g.lateral_range := by
      intro q hq
      unfold keepPoint at hq
      split at hq
      · rename_i hkeep
        rw [List.mem_singleton.mp hq]
        exact ⟨curr, Walked.refl curr, rfl, hkeep⟩
      · simp at hq
    simp only [collectLoop] at hp
    split at hp
    · split at hp
      · simp at hp
      · split at hp
        · exact hkp p hp
        · rename_i w rest hnext
          have hstep : (if mf then env.next curr g.sample_step
              else env.previous curr g.sample_step).head? = some w := by
            rw [hnext]
            rfl
          rcases List.mem_append.mp hp with hp1 | hp2
          · exact hkp p hp1
          · obtain ⟨w2, hw, hrest⟩ := ih w (dist + g.sample_step) p hp2
            exact ⟨w2, Walked.step hstep hw, hrest⟩
    · simp at hp

theorem collect_points_mem (env : CarlaEnv) (g : OpenLaneGenerator) (side : ℤ)
    (Tgw : M4) (start : Waypoint) (mf : Bool) (p : V3)
    (h : p ∈ (collect_points_iter env g side Tgw start mf).1) :
    ∃ w, Walked env g.sample_step mf start w ∧ p = groundPoint env Tgw w side ∧
      -g.back_dist < p.2.1 ∧ p.2.1 < g.max_dist ∧ |p.1| < g.lateral_range := by
  cases mf
  · simp only [collect_points_iter, Bool.false_eq_true, if_false] at h
    split at h
    · simp at h
    · rename_i w rest hprev
      obtain ⟨w2, hw, hrest⟩ := collectLoop_mem env g side Tgw false g.back_dist
        (maxLoops g.back_dist g.sample_step) w g.sample_step p h
      refine ⟨w2, Walked.step ?_ hw, hrest⟩
      simp only [Bool.false_eq_true, if_false]
      rw [hprev]
      rfl
  · simp only [collect_points_iter, if_true] at h
    exact collectLoop_mem env g side Tgw true g.max_dist
      (maxLoops g.max_dist g.sample_step) start 0 p h

/-- C6: RoadSampler point construction and range filter.  Every point
returned by `_sample_lane_boundary_in_ground` is the World→Ground
transform of `center + right_vector * (lane_width/2) * side` of some
waypoint reached by the forward or backward walk from the start
waypoint, and its forward coordinate lies strictly inside
`(-back_dist, max_dist)` while its lateral coordinate is strictly below
the lateral range bound in absolute value; points failing the filter are
silently omitted (the function is total and never raises). -/

theorem C6_sampler_points (env : CarlaEnv) (g : OpenLaneGenerator)
    (start : Waypoint) (Tgw : M4) (side : ℤ) (p : V3)
    (h : p ∈ sample_lane_boundary_in_ground env g start Tgw side) :
    (∃ w, (Walked env g.sample_step true start w ∨
        Walked env g.sample_step false start w) ∧
      p = groundPoint env Tgw w side) ∧
    (-g.back_dist < p.2.1 ∧ p.2.1 < g.max_dist ∧ |p.1| < g.lateral_range) := by
  simp only [sample_lane_boundary_in_ground] at h
  split at h
  · simp at h
  · have hall := enforce_y_monotonic_mem _ _ _ h
    rcases List.mem_append.mp hall with hbwd | hfwd
    · obtain ⟨w, hw, hpt, hfilter⟩ := collect_points_mem env g side Tgw start false p
        (List.mem_reverse.mp hbwd)
      exact ⟨⟨w, Or.inr hw, hpt⟩, hfilter⟩
    · obtain ⟨w, hw, hpt, hfilter⟩ := collect_points_mem env g side Tgw start true p hfwd
      exact ⟨⟨w, Or.inl hw, hpt⟩, hfilter⟩

/-! ### `OpenLaneGenerator.process_frame` (generator.py:178-348) -/

/-- The fixed mount pose `carla.Transform(Location(x=1.6, z=1.55),
Rotation(pitch=-3.0))` (generator.py:186-189). -/

theorem npInv_Rvg_mul : npInv R_vg * R_vg = 1 := by
  ext i j
  fin_cases i <;> fin_cases j <;>
    simp [npInv, Matrix.mul_apply, Fin.sum_univ_three, det_fin_three,
      adjugate_fin_three, R_vg, Matrix.one_apply]

theorem npInv_Rgc_mul : npInv R_gc * R_gc = 1 := by
  ext i j
  fin_cases i <;> fin_cases j <;>
    simp [npInv, Matrix.mul_apply, Fin.sum_univ_three, det_fin_three,
      adjugate_fin_three, R_gc, Matrix.one_apply]

theorem mul_cancel_left3 {A B : M3} (h : A * B = 1) (X : M3) : A * (B * X) = X := by
  rw [← mul_assoc, h, one_mul]

theorem rotBlock_assembleExtrinsic (R : M3) (t : Fin 3 → ℚ) :
    rotBlock (assembleExtrinsic R t) = R := by
  ext i j
  fin_cases i <;> fin_cases j <;> rfl

theorem assembleExtrinsic_translation (R : M3) (t : Fin 3 → ℚ) (i : Fin 3) :
    assembleExtrinsic R t i.castSucc 3 = t i := by
  fin_cases i <;> rfl

/-- Recovery identity: applying the downstream consumer's preprocessing
`inv(R_vg) @ stored @ R_vg @ R_gc` to the stored rotation returns the
rotation it encodes. -/

theorem Rjson_recovery (E : M4) :
    npInv R_vg * Rjson E * R_vg * R_gc = rotBlock E := by
  unfold Rjson
  simp only [mul_assoc]
  rw [mul_cancel_left3 npInv_Rvg_mul]
  rw [mul_cancel_left3 npInv_Rvg_mul]
  rw [npInv_Rgc_mul, mul_one]

/-- C2: Extrinsic re-expression round-trip.  Whenever `process_frame`
emits a record (a non-junction waypoint was found), the emitted
extrinsic's 3x3 rotation block equals
`R_vg @ R_target @ inv(R_gc) @ inv(R_vg)` with the literal constants
`R_vg`, `R_gc` of generator.py:318-324, where `R_target` is the rotation
block of the StandardCamera→Ground extrinsic `E_apollo_cam_to_ground`
computed that tick; the translation column is copied unchanged from that
extrinsic; and the downstream recovery
`inv(R_vg) @ stored @ R_vg @ R_gc` reproduces `R_target` exactly. -/

theorem C2_extrinsic_reexpression (env : CarlaEnv) (g : OpenLaneGenerator)
    (tf : CarlaTransform) (wp : Waypoint)
    (h1 : env.map_get_waypoint (egoLocTemp env tf) = some wp)
    (h2 : wp.is_junction = false) :
    ∃ Ej, (process_frame env g tf).extrinsic = some Ej ∧
      rotBlock Ej = R_vg * rotBlock (computeE env tf wp) * npInv R_gc * npInv R_vg ∧
      (∀ i : Fin 3, Ej i.castSucc 3 = computeE env tf wp i.castSucc 3) ∧
      npInv R_vg * rotBlock Ej * R_vg * R_gc = rotBlock (computeE env tf wp) := by
  have hrec : process_frame env g tf = emittedRecord env g tf wp := by
    unfold process_frame
    rw [h1]
    simp [h2]
  refine ⟨assembleExtrinsic (Rjson (computeE env tf wp))
    (fun i => computeE env tf wp i.castSucc 3), ?_, ?_, ?_, ?_⟩
  · rw [hrec]
    rfl
  · rw [rotBlock_assembleExtrinsic]
    rfl
  · intro i
    rw [assembleExtrinsic_translation]
  · rw [rotBlock_assembleExtrinsic]
    exact Rjson_recovery (computeE env tf wp)

/-- Witness for C2 on a concrete trivial environment whose map query
returns a fixed non-junction waypoint. -/

theorem C2_extrinsic_reexpression_witness :
    ∃ Ej, (process_frame
        { get_matrix := fun _ => 1, get_right_vector := fun _ => (0, 0, 0),
          map_get_waypoint := fun _ => some
            { is_junction := false, transform := {}, lane_width := 0,
              left_lane_marking := ⟨.NONE, .White⟩,
              right_lane_marking := ⟨.NONE, .White⟩ },
          next := fun _ _ => [], previous := fun _ _ => [],
          get_left_lane := fun _ => none, get_right_lane := fun _ => none }
        { K := 1 } {}).extrinsic = some Ej ∧
      rotBlock Ej = R_vg * rotBlock (computeE
        { get_matrix := fun _ => 1, get_right_vector := fun _ => (0, 0, 0),
          map_get_waypoint := fun _ => some
            { is_junction := false, transform := {}, lane_width := 0,
              left_lane_marking := ⟨.NONE, .White⟩,
              right_lane_marking := ⟨.NONE, .White⟩ },
          next := fun _ _ => [], previous := fun _ _ => [],
          get_left_lane := fun _ => none, get_right_lane := fun _ => none } {}
        { is_junction := false, transform := {}, lane_width := 0,
          left_lane_marking := ⟨.NONE, .White⟩,
          right_lane_marking := ⟨.NONE, .White⟩ }) * npInv R_gc * npInv R_vg ∧
      (∀ i : Fin 3, Ej i.castSucc 3 = computeE
        { get_matrix := fun _ => 1, get_right_vector := fun _ => (0, 0, 0),
          map_get_waypoint := fun _ => some
            { is_junction := false, transform := {}, lane_width := 0,
              left_lane_marking := ⟨.NONE, .White⟩,
              right_lane_marking := ⟨.NONE, .White⟩ },
          next := fun _ _ => [], previous := fun _ _ => [],
          get_left_lane := fun _ => none, get_right_lane := fun _ => none } {}
        { is_junction := false, transform := {}, lane_width := 0,
          left_lane_marking := ⟨.NONE, .White⟩,
          right_lane_marking := ⟨.NONE, .White⟩ } i.castSucc 3) ∧
      npInv R_vg * rotBlock Ej * R_vg * R_gc = rotBlock (computeE
        { get_matrix := fun _ => 1, get_right_vector := fun _ => (0, 0, 0),
          map_get_waypoint := fun _ => some
            { is_junction := false, transform := {}, lane_width := 0,
              left_lane_marking := ⟨.NONE, .White⟩,
              right_lane_marking := ⟨.NONE, .White⟩ },
          next := fun _ _ => [], previous := fun _ _ => [],
          get_left_lane := fun _ => none, get_right_lane := fun _ => none } {}
        { is_junction := false, transform := {}, lane_width := 0,
          left_lane_marking := ⟨.NONE, .White⟩,
          right_lane_marking := ⟨.NONE, .White⟩ }) :=
  C2_extrinsic_reexpression _ { K := 1 } {}
    { is_junction := false, transform := {}, lane_width := 0,
      left_lane_marking := ⟨.NONE, .White⟩,
      right_lane_marking := ⟨.NONE, .White⟩ } rfl rfl

/-- C7: Junction / no-road skip.  Whenever the road-graph query returns
no waypoint, or a waypoint inside a junction, `process_frame` returns
the empty record: empty lane list, unset intrinsic and extrinsic, empty
file path.  The embedding is a pure function, so no sampling, projection
or state change occurs on this path. -/

theorem C7_junction_skip (env : CarlaEnv) (g : OpenLaneGenerator)
    (tf : CarlaTransform) :
    (env.map_get_waypoint (egoLocTemp env tf) = none →
      process_frame env g tf = emptyRecord) ∧
    (∀ wp, env.map_get_waypoint (egoLocTemp env tf) = some wp →
      wp.is_junction = true → process_frame env g tf = emptyRecord) := by
  constructor
  · intro h
    unfold process_frame
    rw [h]
  · intro wp h hj
    unfold process_frame
    rw [h]
    simp [hj]

/-- Witness for C7 on an environment whose map query finds no road. -/

theorem C7_junction_skip_witness :
    process_frame
      { get_matrix := fun _ => 1, get_right_vector := fun _ => (0, 0, 0),
        map_get_waypoint := fun _ => none,
        next := fun _ _ => [], previous := fun _ _ => [],
        get_left_lane := fun _ => none, get_right_lane := fun _ => none }
      { K := 1 } {} = emptyRecord :=
  (C7_junction_skip _ { K := 1 } {}).1 rfl

/-! Concrete two-waypoint road graph used to witness the sampler
claims: the walk from `wpW1` hops forward once to `wpW2` and stops. -/

theorem genW_gp1 : groundPoint sampleEnvW 1 wpW1 1 = (0, 0, 0) := by
  unfold groundPoint
  rw [Matrix.one_mulVec]
  unfold boundaryWorldPoint sampleEnvW wpW1
  norm_num

theorem genW_gp2 : groundPoint sampleEnvW 1 wpW2 1 = (0, 1, 0) := by
  unfold groundPoint
  rw [Matrix.one_mulVec]
  unfold boundaryWorldPoint sampleEnvW wpW2
  norm_num

theorem collectLoop_succ_stop (env : CarlaEnv) (g : OpenLaneGenerator)
    (side : ℤ) (Tgw : M4) (mf : Bool) (target : ℚ) (fuel : ℕ) (curr : Waypoint)
    (dist : ℚ) (hd : dist < target)
    (hm : ¬ (markingOf curr side).type = LaneMarkingType.NONE)
    (hnext : (if mf then env.next curr g.sample_step
      else env.previous curr g.sample_step) = []) :
    collectLoop env g side Tgw mf target (fuel + 1) curr dist =
      (keepPoint g (groundPoint env Tgw curr side), 1) := by
  simp only [collectLoop]
  rw [if_pos hd, if_neg hm, hnext]

theorem collectLoop_succ_go (env : CarlaEnv) (g : OpenLaneGenerator)
    (side : ℤ) (Tgw : M4) (mf : Bool) (target : ℚ) (fuel : ℕ) (curr : Waypoint)
    (dist : ℚ) (w : Waypoint) (ws : List Waypoint) (hd : dist < target)
    (hm : ¬ (markingOf curr side).type = LaneMarkingType.NONE)
    (hnext : (if mf then env.next curr g.sample_step
      else env.previous curr g.sample_step) = w :: ws) :
    collectLoop env g side Tgw mf target (fuel + 1) curr dist =
      (keepPoint g (groundPoint env Tgw curr side) ++
        (collectLoop env g side Tgw mf target fuel w (dist + g.sample_step)).1,
       (collectLoop env g side Tgw mf target fuel w (dist + g.sample_step)).2 + 1) := by
  simp only [collectLoop]
  rw [if_pos hd, if_neg hm, hnext]

theorem genW_loop2 :
    collectLoop sampleEnvW genW 1 1 true 103 122 wpW2 1 = ([(0, 1, 0)], 1) := by
  rw [show (122 : ℕ) = 121 + 1 from rfl]
  rw [collectLoop_succ_stop sampleEnvW genW 1 1 true 103 121 wpW2 1
    (by norm_num) (by decide) (by norm_num [sampleEnvW, wpW2])]
  rw [genW_gp2]
  norm_num [keepPoint, genW]

theorem genW_loop1 :
    collectLoop sampleEnvW genW 1 1 true 103 123 wpW1 0 =
      ([(0, 0, 0), (0, 1, 0)], 2) := by
  rw [show (123 : ℕ) = 122 + 1 from rfl]
  rw [collectLoop_succ_go sampleEnvW genW 1 1 true 103 122 wpW1 0 wpW2 []
    (by norm_num) (by decide) (by norm_num [sampleEnvW, wpW1])]
  rw [show (0:ℚ) + genW.sample_step = 1 by norm_num [genW]]
  rw [genW_loop2, genW_gp1]
  norm_num [keepPoint, genW]

theorem genW_sample :
    sample_lane_boundary_in_ground sampleEnvW genW wpW1 1 1 =
      [(0, 0, 0), (0, 1, 0)] := by
  have hfwd : collect_points_iter sampleEnvW genW 1 1 wpW1 true =
      ([(0, 0, 0), (0, 1, 0)], 2) := by
    unfold collect_points_iter
    simp only [if_true]
    have hml : maxLoops genW.max_dist genW.sample_step = 123 := by
      unfold genW maxLoops ratTrunc
      norm_num
      decide
    have hmd : genW.max_dist = 103 := rfl
    rw [hml, hmd]
    exact genW_loop1
  have hbwd : collect_points_iter sampleEnvW genW 1 1 wpW1 false = ([], 0) := by
    unfold collect_points_iter
    simp [sampleEnvW]
  simp only [sample_lane_boundary_in_ground, hfwd, hbwd]
  norm_num [enforce_y_monotonic, sortByY, List.mergeSort, monoFilter]

/-- Witness for C6: the point (0,1,0) produced by the concrete walk. -/

theorem C6_sampler_points_witness :
    (∃ w, (Walked sampleEnvW genW.sample_step true wpW1 w ∨
        Walked sampleEnvW genW.sample_step false wpW1 w) ∧
      ((0:ℚ), (1:ℚ), (0:ℚ)) = groundPoint sampleEnvW 1 w 1) ∧
    (-genW.back_dist < ((0:ℚ), (1:ℚ), (0:ℚ)).2.1 ∧
      ((0:ℚ), (1:ℚ), (0:ℚ)).2.1 < genW.max_dist ∧
      |((0:ℚ), (1:ℚ), (0:ℚ)).1| < genW.lateral_range) :=
  C6_sampler_points sampleEnvW genW wpW1 1 1 ((0:ℚ), (1:ℚ), (0:ℚ))
    (by rw [genW_sample]; simp)
